import Mathlib

/-!
Verification of the icon_maker repository (src/icon_maker.py).

The program is a single-pass batch converter built on the Pillow imaging
library and the zipfile archive library.  This file gives a shallow
embedding of the source: bitmaps are width/height plus a total pixel
function, fallible steps (Pillow raising, SystemExit) are `Except`,
and library routines whose output the program merely forwards
(LANCZOS resampling, color parsing, image decoding, the argparse fallback
parsing) are abstract parameters, while their validation behaviour and
the compositing arithmetic Pillow actually performs are modelled
concretely.  The Python binary floating point in `square_contain`
(`scale = min(size / w, size / h)`; `int(w * scale)`) is modelled exactly:
`fl64` is IEEE-754 binary64 round-to-nearest-even carried out on exact
rationals, applied once per arithmetic operation as CPython does.
-/

/-- An RGBA pixel as stored by Pillow in mode "RGBA": four 8-bit channels.
Channels are `Nat`; the 0..255 range is tracked by `RGBA.Valid`. -/
structure RGBA where
  r : Nat
  g : Nat
  b : Nat
  a : Nat
deriving DecidableEq, Repr

/-- All four channels are in the 8-bit range, as they are for any pixel of a
real mode-"RGBA" Pillow image. -/
def RGBA.Valid (p : RGBA) : Prop :=
  p.r ≤ 255 ∧ p.g ≤ 255 ∧ p.b ≤ 255 ∧ p.a ≤ 255

instance (p : RGBA) : Decidable p.Valid := by
  unfold RGBA.Valid; infer_instance

/-- The fully transparent black pixel: the default fill of
`Image.new("RGBA", (w, h))`. -/
def RGBA.clear : RGBA := ⟨0, 0, 0, 0⟩

/-- An in-memory bitmap: dimensions plus a total pixel function
(coordinates outside the bitmap are irrelevant to every statement below). -/
structure Bitmap where
  width : Nat
  height : Nat
  px : Nat → Nat → RGBA

/-- Modelled from the library: the pixel content produced by
`Image.resize(.., LANCZOS)` is delegated to Pillow, so it is kept abstract:
a resampler takes the source bitmap and the target dimensions and yields the
resampled pixel function.  Every theorem below holds for an arbitrary
resampler. -/
abbrev Resampler := Bitmap → Nat → Nat → Nat → Nat → RGBA

/-- A concrete resampler (nearest-neighbour style), used only to instantiate
witnesses. -/
def sampleR : Resampler := fun im nw nh x y =>
  im.px (x * im.width / nw) (y * im.height / nh)

/-- Model of `im.resize((nw, nh), LANCZOS)` for already-validated positive target
dimensions: the dimensions are set structurally, the pixels come from the
resampler. -/
def resize (R : Resampler) (im : Bitmap) (nw nh : Nat) : Bitmap :=
  ⟨nw, nh, R im nw nh⟩

/-- The message of the `ValueError` Pillow raises when `Image.resize` is
given a non-positive target dimension. -/
def resizeErrMsg : String := "height and width must be > 0"

/-- Modelled from the library: `Image.resize((nw, nh), LANCZOS)` including
the validation in Pillow, which rejects non-positive target dimensions with
`ValueError: height and width must be > 0`. -/
def resizeChecked (R : Resampler) (im : Bitmap) (nw nh : Int) :
    Except String Bitmap :=
  if 0 < nw ∧ 0 < nh then .ok (resize R im nw.toNat nh.toNat)
  else .error resizeErrMsg

/-- Model of `Image.new("RGBA", (w, h), c)`: a solid canvas. -/
def Bitmap.fill (w h : Nat) (c : RGBA) : Bitmap := ⟨w, h, fun _ _ => c⟩

/-- Modelled from the library: the Pillow `MULDIV255(a, b)` macro,
`(t = a*b + 128; ((t >> 8) + t) >> 8)`, the rounded byte product used by
`Image.paste` compositing. -/
def muldiv255 (a b : Nat) : Nat :=
  ((a * b + 128) / 256 + (a * b + 128)) / 256

/-- Modelled from the library: one channel of the Pillow paste-with-mask
blend, `BLEND(mask, dst, src) = MULDIV255(dst, 255 - mask) +
MULDIV255(src, mask)`. -/
def blendCh (m d s : Nat) : Nat := muldiv255 d (255 - m) + muldiv255 s m

/-- The Pillow paste-with-mask blend applied to all four channels of an RGBA
destination pixel `d` and source pixel `s` under mask value `m`. -/
def blendPx (m : Nat) (d s : RGBA) : RGBA :=
  ⟨blendCh m d.r s.r, blendCh m d.g s.g, blendCh m d.b s.b, blendCh m d.a s.a⟩

/-- Model of `canvas.paste(im, (ox, oy), mask)`: inside the pasted rectangle each
pixel is the masked blend of the canvas pixel and the source pixel, outside
it the canvas is untouched.  The mask is the per-pixel mask value (the alpha
band when an RGBA image serves as its own mask, the "L" band for an "L"-mode
mask). -/
def paste (canvas im : Bitmap) (ox oy : Nat) (mask : Nat → Nat → Nat) :
    Bitmap :=
  ⟨canvas.width, canvas.height, fun x y =>
    if ox ≤ x ∧ x < ox + im.width ∧ oy ≤ y ∧ y < oy + im.height then
      blendPx (mask (x - ox) (y - oy)) (canvas.px x y) (im.px (x - ox) (y - oy))
    else canvas.px x y⟩

/-- Model of `im.crop((x0, y0, x1, y1))`: the right and lower bounds are exclusive,
so the result is `(x1 - x0) x (y1 - y0)` and pixel `(x, y)` comes from
`(x0 + x, y0 + y)` of the source. -/
def crop (im : Bitmap) (x0 y0 x1 y1 : Nat) : Bitmap :=
  ⟨x1 - x0, y1 - y0, fun x y => im.px (x0 + x) (y0 + y)⟩

/-- Function `square_cover` from src/icon_maker.py lines 80-87: center-crop to the
square of side `min(w, h)`.  `convert("RGBA")` is the identity here because
bitmaps are already modelled in RGBA. -/
def square_cover (im : Bitmap) : Bitmap :=
  let side := min im.width im.height
  let x0 := (im.width - side) / 2
  let y0 := (im.height - side) / 2
  crop im x0 y0 (x0 + side) (y0 + side)

/-- Modelled from the library: the set of pixels filled by
`ImageDraw.Draw(mask).ellipse((0, 0, w, h), fill=255)`.  ImageDraw bounding
boxes are inclusive of both corners, so this is the disc of the ellipse
centred at `(w/2, h/2)` with semi-axes `w/2` and `h/2`:
`h^2 (2x - w)^2 + w^2 (2y - h)^2 <= w^2 h^2`. -/
def inEllipse (w h x y : Nat) : Bool :=
  decide ((h : Int) ^ 2 * (2 * (x : Int) - w) ^ 2
      + (w : Int) ^ 2 * (2 * (y : Int) - h) ^ 2 ≤ (w : Int) ^ 2 * (h : Int) ^ 2)

/-- The "L"-mode mask produced in `make_round`: 255 inside the drawn
ellipse, 0 (the `Image.new("L", (w, h), 0)` background) outside. -/
def ellipseMaskVal (w h x y : Nat) : Nat := if inEllipse w h x y then 255 else 0

/-- Function `make_round` from src/icon_maker.py lines 89-98: build the ellipse mask,
create a fresh fully transparent RGBA canvas and paste the image through the
mask. -/
def make_round (im : Bitmap) : Bitmap :=
  paste (Bitmap.fill im.width im.height RGBA.clear) im 0 0
    (fun x y => ellipseMaskVal im.width im.height x y)

/-- A background color as returned by `ImageColor.getrgb` in its 3-tuple
form. -/
abbrev RGB := Nat × Nat × Nat

/-- The canvas fill used by `square_contain`:
`(0,0,0,0) if bg_rgb is None else (*bg_rgb, 255)`. -/
def bgPixel : Option RGB → RGBA
  | none => RGBA.clear
  | some c => ⟨c.1, c.2.1, c.2.2, 255⟩

/-- Modelled from the library: rounding a rational to the nearest integer
with ties to even, the rounding of an IEEE-754 significand. -/
def rne (m : ℚ) : ℤ :=
  if m - ⌊m⌋ < 1 / 2 then ⌊m⌋
  else if 1 / 2 < m - ⌊m⌋ then ⌊m⌋ + 1
  else if ⌊m⌋ % 2 = 0 then ⌊m⌋ else ⌊m⌋ + 1

/-- Round-to-nearest-even of a positive rational at 53 significant bits:
the scaled significand `q / 2 ^ (log2 q - 52)` lies in `[2^52, 2^53)` and
is rounded to an integer. -/
def fl64Pos (q : ℚ) : ℚ :=
  (rne (q / 2 ^ (Int.log 2 q - 52)) : ℚ) * 2 ^ (Int.log 2 q - 52)

/-- Modelled from the library: the IEEE-754 binary64 value of an exact
rational — round to nearest, ties to even, 53-bit significand, unbounded
exponent (exponent overflow and subnormals cannot occur at the magnitudes
this program computes).  CPython evaluates each of `size / w` and
`w * scale` as one correctly rounded binary64 operation, i.e. as `fl64` of
the exact rational result. -/
def fl64 (q : ℚ) : ℚ :=
  if q < 0 then -fl64Pos (-q) else if q = 0 then 0 else fl64Pos q

/-- The float `scale = min(size / w, size / h)` of src/icon_maker.py line
71: two correctly rounded divisions of exactly represented integers,
followed by an exact `min`. -/
def containScale (im : Bitmap) (size : Nat) : ℚ :=
  min (fl64 ((size : ℚ) / (im.width : ℚ))) (fl64 ((size : ℚ) / (im.height : ℚ)))

/-- The width `nw = int(w * scale)` of src/icon_maker.py line 72: one
correctly rounded float multiplication, truncated by `int()` (the floor,
all values being non-negative). -/
def containW (im : Bitmap) (size : Nat) : Nat :=
  (⌊fl64 ((im.width : ℚ) * containScale im size)⌋).toNat

/-- The height `nh = int(h * scale)` of src/icon_maker.py line 72. -/
def containH (im : Bitmap) (size : Nat) : Nat :=
  (⌊fl64 ((im.height : ℚ) * containScale im size)⌋).toNat

/-- Function `square_contain` from src/icon_maker.py lines 67-78, its float
arithmetic transcribed into `containScale` / `containW` / `containH`.  A
zero source dimension raises `ZeroDivisionError` in Python; the internal
`resize` call carries the Pillow positive-dimension validation. -/
def square_contain (R : Resampler) (im : Bitmap) (size : Nat)
    (bg : Option RGB) : Except String Bitmap :=
  if im.width = 0 ∨ im.height = 0 then
    .error "ZeroDivisionError: division by zero"
  else
    match resizeChecked R im (containW im size) (containH im size) with
    | .error e => .error e
    | .ok resized =>
        .ok (paste (Bitmap.fill size size (bgPixel bg)) resized
              ((size - containW im size) / 2) ((size - containH im size) / 2)
              (fun i j => (resized.px i j).a))

theorem muldiv255_self (s : Nat) (hs : s ≤ 255) : muldiv255 s 255 = s := by
  unfold muldiv255; omega

theorem muldiv255_right_zero (s : Nat) : muldiv255 s 0 = 0 := by
  unfold muldiv255; omega

/-- Paste with a full-opacity mask value copies the source pixel exactly. -/
theorem blendPx_full (d s : RGBA) (hs : s.Valid) : blendPx 255 d s = s := by
  obtain ⟨s1, s2, s3, s4⟩ := s
  obtain ⟨h1, h2, h3, h4⟩ := hs
  simp only [blendPx, blendCh, Nat.sub_self, muldiv255_right_zero,
    muldiv255_self _ h1, muldiv255_self _ h2, muldiv255_self _ h3,
    muldiv255_self _ h4, Nat.zero_add]

/-- Paste with a zero mask value keeps the destination pixel exactly. -/
theorem blendPx_zero (d s : RGBA) (hd : d.Valid) : blendPx 0 d s = d := by
  obtain ⟨d1, d2, d3, d4⟩ := d
  obtain ⟨h1, h2, h3, h4⟩ := hd
  simp only [blendPx, blendCh, Nat.sub_zero, muldiv255_right_zero,
    muldiv255_self _ h1, muldiv255_self _ h2, muldiv255_self _ h3,
    muldiv255_self _ h4, Nat.add_zero]

/-- C1: For every square input bitmap, the rounding operation yields an
output of the same dimensions whose pixels inside the inscribed circle are
identical to the corresponding (in particular, opaque where the input is
opaque) pixels of the input, and whose pixels outside the circle are the
fully transparent pixel. -/
theorem make_round_circle (im : Bitmap) (hsq : im.width = im.height)
    (x y : Nat) (hx : x < im.width) (hy : y < im.height)
    (hv : (im.px x y).Valid) :
    (make_round im).width = im.width ∧
    (make_round im).height = im.height ∧
    (inEllipse im.width im.height x y = true →
      (make_round im).px x y = im.px x y) ∧
    (inEllipse im.width im.height x y = false →
      (make_round im).px x y = RGBA.clear) := by
  refine ⟨rfl, rfl, ?_, ?_⟩ <;> intro hell <;>
    simp only [make_round, paste, Bitmap.fill, ellipseMaskVal, hell,
      if_true, if_false, Nat.zero_add, Nat.sub_zero, Nat.zero_le, hx, hy,
      and_true, true_and, if_pos, Bool.false_eq_true]
  · exact blendPx_full _ _ hv
  · exact blendPx_zero _ _ (by decide)

/-- Concrete 2x2 bitmap used by witnesses. -/
def demo2 : Bitmap := ⟨2, 2, fun _ _ => ⟨10, 20, 30, 255⟩⟩

/-- Witness for C1: the centre pixel of a concrete 2x2 bitmap is inside the
inscribed circle and survives rounding unchanged. -/
theorem make_round_circle_witness :
    (make_round demo2).width = demo2.width ∧
    (make_round demo2).height = demo2.height ∧
    (inEllipse demo2.width demo2.height 1 1 = true →
      (make_round demo2).px 1 1 = demo2.px 1 1) ∧
    (inEllipse demo2.width demo2.height 1 1 = false →
      (make_round demo2).px 1 1 = RGBA.clear) :=
  make_round_circle demo2 rfl 1 1 (by decide) (by decide) (by decide)

/-- C3: the crop-fit (cover) operation returns a bitmap that is exactly
square with side `min(w, h)`, whose pixels are exactly those of the largest
centered square sub-region of the source. -/
theorem square_cover_spec (im : Bitmap) (x y : Nat) :
    (square_cover im).width = min im.width im.height ∧
    (square_cover im).height = min im.width im.height ∧
    (square_cover im).px x y =
      im.px ((im.width - min im.width im.height) / 2 + x)
            ((im.height - min im.width im.height) / 2 + y) := by
  refine ⟨?_, ?_, rfl⟩ <;> simp [square_cover, crop]

/-- Rounding to nearest never exceeds the argument by more than one
half. -/
theorem rne_le (m : ℚ) : (rne m : ℚ) ≤ m + 1 / 2 := by
  unfold rne
  have h1 := Int.floor_le m
  have h2 := Int.lt_floor_add_one m
  split
  · linarith
  · split
    · push_cast
      linarith
    · split <;> push_cast <;> linarith

theorem rne_nonneg (m : ℚ) (hm : 0 ≤ m) : 0 ≤ rne m := by
  unfold rne
  have h0 : 0 ≤ ⌊m⌋ := Int.floor_nonneg.mpr hm
  split
  · exact h0
  · split
    · omega
    · split <;> omega

/-- Integers round to themselves. -/
theorem rne_intCast (n : ℤ) : rne (n : ℚ) = n := by
  unfold rne
  rw [Int.floor_intCast, sub_self]
  norm_num

theorem fl64Pos_nonneg (q : ℚ) (hq : 0 < q) : 0 ≤ fl64Pos q := by
  have hE : (0 : ℚ) < 2 ^ (Int.log 2 q - 52) := zpow_pos (by norm_num) _
  have hm : 0 ≤ q / 2 ^ (Int.log 2 q - 52) := le_of_lt (div_pos hq hE)
  exact mul_nonneg (by exact_mod_cast rne_nonneg _ hm) (le_of_lt hE)

/-- The fundamental rounding bound: a positive rational grows by at most
one unit in the last place over half, i.e. a relative 2^-53, under binary64
rounding. -/
theorem fl64Pos_le (q : ℚ) (hq : 0 < q) :
    fl64Pos q ≤ q + q * 2 ^ (-53 : ℤ) := by
  have hE : (0 : ℚ) < 2 ^ (Int.log 2 q - 52) := zpow_pos (by norm_num) _
  have hlog : (2 : ℚ) ^ Int.log 2 q ≤ q := by
    have h := Int.zpow_log_le_self (b := 2) (R := ℚ) (by norm_num) hq
    exact_mod_cast h
  have h1 : (rne (q / 2 ^ (Int.log 2 q - 52)) : ℚ)
      ≤ q / 2 ^ (Int.log 2 q - 52) + 1 / 2 := rne_le _
  have h2 : fl64Pos q
      ≤ (q / 2 ^ (Int.log 2 q - 52) + 1 / 2) * 2 ^ (Int.log 2 q - 52) := by
    unfold fl64Pos
    exact mul_le_mul_of_nonneg_right h1 (le_of_lt hE)
  have h3 : (q / 2 ^ (Int.log 2 q - 52) + 1 / 2) * 2 ^ (Int.log 2 q - 52)
      = q + 2 ^ (Int.log 2 q - 53) := by
    rw [add_mul, div_mul_cancel₀ _ (ne_of_gt hE)]
    congr 1
    rw [show Int.log 2 q - 53 = (-1) + (Int.log 2 q - 52) by ring,
      zpow_add₀ (by norm_num : (2 : ℚ) ≠ 0), zpow_neg_one]
    ring
  have h4 : (2 : ℚ) ^ (Int.log 2 q - 53) ≤ q * 2 ^ (-53 : ℤ) := by
    rw [show Int.log 2 q - 53 = Int.log 2 q + (-53) by ring,
      zpow_add₀ (by norm_num : (2 : ℚ) ≠ 0)]
    exact mul_le_mul_of_nonneg_right hlog (le_of_lt (zpow_pos (by norm_num) _))
  linarith

theorem fl64_nonneg (q : ℚ) (hq : 0 ≤ q) : 0 ≤ fl64 q := by
  unfold fl64
  rw [if_neg (not_lt.mpr hq)]
  split
  · exact le_refl 0
  next h => exact fl64Pos_nonneg q (lt_of_le_of_ne hq (Ne.symm h))

theorem fl64_le (q : ℚ) (hq : 0 ≤ q) : fl64 q ≤ q + q * 2 ^ (-53 : ℤ) := by
  unfold fl64
  rw [if_neg (not_lt.mpr hq)]
  split
  next h =>
    rw [h]
    norm_num
  next h => exact fl64Pos_le q (lt_of_le_of_ne hq (Ne.symm h))

/-- Powers of two are represented exactly. -/
theorem fl64_pow2 (k : ℤ) : fl64 ((2 : ℚ) ^ k) = (2 : ℚ) ^ k := by
  have hpos : (0 : ℚ) < 2 ^ k := zpow_pos (by norm_num) _
  unfold fl64
  rw [if_neg (not_lt.mpr hpos.le), if_neg (ne_of_gt hpos)]
  unfold fl64Pos
  have hlog : Int.log 2 ((2 : ℚ) ^ k) = k := by
    have h := Int.log_zpow (R := ℚ) (b := 2) (by norm_num) k
    exact_mod_cast h
  rw [hlog]
  have hm : (2 : ℚ) ^ k / 2 ^ (k - 52) = ((2 ^ 52 : ℤ) : ℚ) := by
    rw [← zpow_sub₀ (by norm_num : (2 : ℚ) ≠ 0),
      show k - (k - 52) = 52 by ring]
    norm_num
  rw [hm, rne_intCast]
  have h52 : ((2 ^ 52 : ℤ) : ℚ) = (2 : ℚ) ^ (52 : ℤ) := by norm_num
  rw [h52, ← zpow_add₀ (by norm_num : (2 : ℚ) ≠ 0),
    show (52 : ℤ) + (k - 52) = k by ring]

theorem fl64_two : fl64 (2 : ℚ) = 2 := by
  have h := fl64_pow2 1
  rw [zpow_one] at h
  exact h

theorem fl64_four : fl64 (4 : ℚ) = 4 := by
  have h := fl64_pow2 2
  norm_num at h
  exact h

theorem fl64_sixteen : fl64 (16 : ℚ) = 16 := by
  have h := fl64_pow2 4
  norm_num at h
  exact h

/-- A truncated rounded product `int(d * sc)` stays below the target size
whenever the scale already sits below `size / d` up to one relative
rounding error and `size` is small enough (2^51 covers every realistic
size) that the two accumulated half-ulps cannot reach the next integer. -/
theorem contain_dim_le (d sc : ℚ) (hd : 0 < d) (hsc0 : 0 ≤ sc) (size : Nat)
    (hsize : size ≤ 2 ^ 51)
    (hsc : sc ≤ (size : ℚ) / d + ((size : ℚ) / d) * 2 ^ (-53 : ℤ)) :
    (⌊fl64 (d * sc)⌋).toNat ≤ size := by
  have hε : (0 : ℚ) < 2 ^ (-53 : ℤ) := zpow_pos (by norm_num) _
  have hx0 : 0 ≤ d * sc := mul_nonneg hd.le hsc0
  have h3 : d * sc ≤ (size : ℚ) + (size : ℚ) * 2 ^ (-53 : ℤ) := by
    have h := mul_le_mul_of_nonneg_left hsc hd.le
    have he : d * ((size : ℚ) / d + ((size : ℚ) / d) * 2 ^ (-53 : ℤ))
        = (size : ℚ) + (size : ℚ) * 2 ^ (-53 : ℤ) := by
      field_simp
      ring
    rw [he] at h
    exact h
  have h4 : fl64 (d * sc)
      ≤ ((size : ℚ) + (size : ℚ) * 2 ^ (-53 : ℤ))
        + ((size : ℚ) + (size : ℚ) * 2 ^ (-53 : ℤ)) * 2 ^ (-53 : ℤ) := by
    refine le_trans (fl64_le _ hx0) ?_
    have h := mul_le_mul_of_nonneg_right h3 hε.le
    linarith
  have hεv : (2 : ℚ) ^ (-53 : ℤ) = 1 / 9007199254740992 := by norm_num
  have hs1 : (size : ℚ) ≤ 2251799813685248 := by
    calc (size : ℚ) ≤ ((2 ^ 51 : ℕ) : ℚ) := by exact_mod_cast hsize
      _ = 2251799813685248 := by norm_num
  have h5 : ((size : ℚ) + (size : ℚ) * 2 ^ (-53 : ℤ))
      + ((size : ℚ) + (size : ℚ) * 2 ^ (-53 : ℤ)) * 2 ^ (-53 : ℤ)
      < (size : ℚ) + 1 := by
    rw [hεv]
    nlinarith [hs1]
  have h6 : ⌊fl64 (d * sc)⌋ < (size : ℤ) + 1 := by
    rw [Int.floor_lt]
    push_cast
    linarith
  rw [Int.toNat_le]
  omega

theorem containScale_nonneg (im : Bitmap) (size : Nat) :
    0 ≤ containScale im size :=
  le_min (fl64_nonneg _ (by positivity)) (fl64_nonneg _ (by positivity))

theorem containW_le (im : Bitmap) (size : Nat) (hw : 0 < im.width)
    (hsize : size ≤ 2 ^ 51) : containW im size ≤ size := by
  have hw0 : (0 : ℚ) < (im.width : ℚ) := by exact_mod_cast hw
  exact contain_dim_le _ _ hw0 (containScale_nonneg im size) size hsize
    (le_trans (min_le_left _ _) (fl64_le _ (by positivity)))

theorem containH_le (im : Bitmap) (size : Nat) (hh : 0 < im.height)
    (hsize : size ≤ 2 ^ 51) : containH im size ≤ size := by
  have hh0 : (0 : ℚ) < (im.height : ℚ) := by exact_mod_cast hh
  exact contain_dim_le _ _ hh0 (containScale_nonneg im size) size hsize
    (le_trans (min_le_right _ _) (fl64_le _ (by positivity)))

/-- When both truncated scaled dimensions are positive, `square_contain`
returns the pasted composition. -/
theorem square_contain_eq (R : Resampler) (im : Bitmap) (size : Nat)
    (bg : Option RGB) (hw : 0 < im.width) (hh : 0 < im.height)
    (hnw : 1 ≤ containW im size) (hnh : 1 ≤ containH im size) :
    square_contain R im size bg =
      .ok (paste (Bitmap.fill size size (bgPixel bg))
            (resize R im (containW im size) (containH im size))
            ((size - containW im size) / 2) ((size - containH im size) / 2)
            (fun i j =>
              ((resize R im (containW im size) (containH im size)).px i j).a)) := by
  have hrc : resizeChecked R im (containW im size) (containH im size)
      = .ok (resize R im (containW im size) (containH im size)) := by
    unfold resizeChecked
    rw [if_pos ⟨by exact_mod_cast hnw, by exact_mod_cast hnh⟩,
      Int.toNat_natCast, Int.toNat_natCast]
  unfold square_contain
  rw [if_neg (by omega), hrc]

/-- C2 (amended): for every source image with positive dimensions and any
target size up to 2^51, whenever the float-computed scaled dimensions are
both at least one pixel the pad-fit (contain) operation returns a bitmap
that is exactly `size x size`; the resized source — both dimensions derived
from the one float scale factor, each at most `size` (float truncation can
leave it one pixel short of `size`) — sits fully inside the canvas at the
centered offsets; every pixel of the pasted region is the source pixel
alpha-composited over the background, and every pixel outside the pasted
region is exactly the background color (or transparency). -/
theorem square_contain_spec (R : Resampler) (im : Bitmap) (size : Nat)
    (bg : Option RGB) (hw : 0 < im.width) (hh : 0 < im.height)
    (hsize : size ≤ 2 ^ 51)
    (hnw : 1 ≤ containW im size) (hnh : 1 ≤ containH im size)
    (i j px py : Nat) (hi : i < containW im size) (hj : j < containH im size)
    (hpx : px < size) (hpy : py < size)
    (hout : ¬ ((size - containW im size) / 2 ≤ px ∧
        px < (size - containW im size) / 2 + containW im size ∧
        (size - containH im size) / 2 ≤ py ∧
        py < (size - containH im size) / 2 + containH im size)) :
    (square_contain R im size bg).map Bitmap.width = .ok size ∧
    (square_contain R im size bg).map Bitmap.height = .ok size ∧
    containW im size ≤ size ∧
    containH im size ≤ size ∧
    (size - containW im size) / 2 + containW im size ≤ size ∧
    (size - containH im size) / 2 + containH im size ≤ size ∧
    (square_contain R im size bg).map
        (fun o => o.px ((size - containW im size) / 2 + i)
                       ((size - containH im size) / 2 + j)) =
      .ok (blendPx ((R im (containW im size) (containH im size) i j).a)
            (bgPixel bg) (R im (containW im size) (containH im size) i j)) ∧
    (square_contain R im size bg).map (fun o => o.px px py) =
      .ok (bgPixel bg) := by
  have key := square_contain_eq R im size bg hw hh hnw hnh
  have h2 := containW_le im size hw hsize
  have h3 := containH_le im size hh hsize
  refine ⟨by rw [key]; rfl, by rw [key]; rfl, h2, h3, by omega, by omega,
    ?_, ?_⟩
  · rw [key]
    simp only [Except.map, paste, resize, Bitmap.fill]
    rw [if_pos (by omega)]
    simp [Nat.add_sub_cancel_left]
  · rw [key]
    simp only [Except.map, paste, resize, Bitmap.fill]
    rw [if_neg hout]

/-- Concrete 2x1 bitmap used by the C2 witness. -/
def wideIm : Bitmap := ⟨2, 1, fun _ _ => ⟨10, 20, 30, 255⟩⟩

theorem containScale_wideIm : containScale wideIm 4 = 2 := by
  unfold containScale wideIm
  norm_num
  rw [fl64_two, fl64_four]
  norm_num

theorem containW_wideIm : containW wideIm 4 = 4 := by
  unfold containW
  rw [containScale_wideIm,
    show ((wideIm.width : ℕ) : ℚ) * 2 = 4 by norm_num [wideIm], fl64_four,
    show (4 : ℚ) = ((4 : ℕ) : ℚ) by norm_num, Int.floor_natCast]
  rfl

theorem containH_wideIm : containH wideIm 4 = 2 := by
  unfold containH
  rw [containScale_wideIm,
    show ((wideIm.height : ℕ) : ℚ) * 2 = 2 by norm_num [wideIm], fl64_two,
    show (2 : ℚ) = ((2 : ℕ) : ℚ) by norm_num, Int.floor_natCast]
  rfl

/-- Witness for C2: a 2x1 source padded into a 4x4 square; `(0, 0)` of the
resized region is composited source, canvas pixel `(0, 0)` lies above the
pasted band and is background. -/
theorem square_contain_spec_witness :
    (square_contain sampleR wideIm 4 none).map Bitmap.width = .ok 4 ∧
    (square_contain sampleR wideIm 4 none).map Bitmap.height = .ok 4 ∧
    containW wideIm 4 ≤ 4 ∧
    containH wideIm 4 ≤ 4 ∧
    (4 - containW wideIm 4) / 2 + containW wideIm 4 ≤ 4 ∧
    (4 - containH wideIm 4) / 2 + containH wideIm 4 ≤ 4 ∧
    (square_contain sampleR wideIm 4 none).map
        (fun o => o.px ((4 - containW wideIm 4) / 2 + 0)
                       ((4 - containH wideIm 4) / 2 + 0)) =
      .ok (blendPx ((sampleR wideIm (containW wideIm 4) (containH wideIm 4) 0 0).a)
            (bgPixel none) (sampleR wideIm (containW wideIm 4) (containH wideIm 4) 0 0)) ∧
    (square_contain sampleR wideIm 4 none).map (fun o => o.px 0 0) =
      .ok (bgPixel none) :=
  square_contain_spec sampleR wideIm 4 none (by decide) (by decide)
    (by norm_num)
    (by rw [containW_wideIm]; decide)
    (by rw [containH_wideIm]; decide)
    0 0 0 0
    (by rw [containW_wideIm]; decide)
    (by rw [containH_wideIm]; decide)
    (by decide) (by decide)
    (by rw [containW_wideIm, containH_wideIm]; decide)

/-- Concrete 1x17 bitmap on which the claim C2 fails as stated. -/
def tallIm : Bitmap := ⟨1, 17, fun _ _ => ⟨0, 0, 0, 255⟩⟩

/-- At a 1x17 source and size 16 the float scale is the rounding of 16/17,
still below one, so the truncated width is zero. -/
theorem containW_tallIm : containW tallIm 16 = 0 := by
  have hsc0 : 0 ≤ containScale tallIm 16 := containScale_nonneg tallIm 16
  have hscU : containScale tallIm 16
      ≤ (16 / 17 : ℚ) + (16 / 17 : ℚ) * 2 ^ (-53 : ℤ) := by
    have harg : ((16 : ℕ) : ℚ) / ((tallIm.height : ℕ) : ℚ) = 16 / 17 := by
      norm_num [tallIm]
    calc containScale tallIm 16
        ≤ fl64 (((16 : ℕ) : ℚ) / ((tallIm.height : ℕ) : ℚ)) :=
          min_le_right _ _
      _ ≤ (16 / 17 : ℚ) + (16 / 17 : ℚ) * 2 ^ (-53 : ℤ) := by
          rw [harg]
          exact fl64_le _ (by norm_num)
  have hx : ((tallIm.width : ℕ) : ℚ) * containScale tallIm 16
      = containScale tallIm 16 := by
    norm_num [tallIm]
  have hup : fl64 (((tallIm.width : ℕ) : ℚ) * containScale tallIm 16) < 1 := by
    rw [hx]
    refine lt_of_le_of_lt (fl64_le _ hsc0) ?_
    have hεv : (2 : ℚ) ^ (-53 : ℤ) = 1 / 9007199254740992 := by norm_num
    rw [hεv] at hscU ⊢
    nlinarith [hsc0, hscU]
  have hlo : 0 ≤ fl64 (((tallIm.width : ℕ) : ℚ) * containScale tallIm 16) :=
    fl64_nonneg _ (by rw [hx]; exact hsc0)
  have hfloor : ⌊fl64 (((tallIm.width : ℕ) : ℚ) * containScale tallIm 16)⌋ = 0 :=
    Int.floor_eq_zero_iff.mpr ⟨hlo, hup⟩
  unfold containW
  rw [hfloor]
  rfl

/-- Counterexample to C2 as stated: for the valid 1x17 source and target
size 16 the float-scaled width truncates to zero, so `square_contain` does
not return a bitmap at all; the internal resize raises
`ValueError: height and width must be > 0`. -/
theorem square_contain_extreme_cex :
    square_contain sampleR tallIm 16 none = .error resizeErrMsg ∧
    ∀ out : Bitmap, square_contain sampleR tallIm 16 none ≠ .ok out := by
  have hrc : resizeChecked sampleR tallIm (containW tallIm 16)
      (containH tallIm 16) = .error resizeErrMsg := by
    unfold resizeChecked
    rw [containW_tallIm, if_neg (by simp)]
  have key : square_contain sampleR tallIm 16 none = .error resizeErrMsg := by
    unfold square_contain
    rw [if_neg (by decide), hrc]
  exact ⟨key, fun out hc => by rw [key] at hc; exact Except.noConfusion hc⟩

/-- Python `str.lower` (ASCII range, which covers every comparison the
program makes). -/
def lowerStr (s : String) : String := ⟨s.data.map Char.toLower⟩

/-- The parsed command-line configuration built by `parse_args`
(src/icon_maker.py lines 36-58): input path, output directory, size list,
fit mode ("contain" or "cover"), background string, round flag, zip flag. -/
structure Config where
  input : String
  outdir : String
  sizes : List Int
  mode : String
  bg : String
  makeRound : Bool
  makeZip : Bool

/-- Replace the background string of a configuration, leaving every other
field unchanged (used to compare two runs that differ only in `--bg`). -/
def Config.setBg (c : Config) (b : String) : Config :=
  ⟨c.input, c.outdir, c.sizes, c.mode, b, c.makeRound, c.makeZip⟩

/-- Function `parse_bg` from src/icon_maker.py lines 59-65.  `ImageColor.getrgb` is
the abstract parameter `g` (`none` models its `ValueError`); `raise
SystemExit(msg)` terminates the process with status 1 after printing the
message, modelled as the error case. -/
def parse_bg (g : String → Option RGB) (color_str : String) :
    Except String (Option RGB) :=
  if lowerStr color_str = "transparent" then .ok none
  else
    match g color_str with
    | some c => .ok (some c)
    | none => .error ("Invalid --bg color: " ++ color_str)

/-- Model of `os.path.join` for the shapes the program uses (a directory joined with
a bare file name). -/
def joinPath (a b : String) : String :=
  if a = "" then b else if a.endsWith "/" then a ++ b else a ++ "/" ++ b

/-- Model of `os.path.basename`: the part after the last slash. -/
def basename (p : String) : String := (p.splitOn "/").getLastD ""

/-- The master-square construction in `main` (src/icon_maker.py lines
105-108): cover center-crops then resizes to 1024 x 1024, any other mode
(argparse only admits "contain") pads into a 1024 x 1024 canvas. -/
def makeMaster (R : Resampler) (src : Bitmap) (mode : String)
    (bg : Option RGB) : Except String Bitmap :=
  if mode = "cover" then .ok (resize R (square_cover src) 1024 1024)
  else square_contain R src 1024 bg

/-- The per-size loop of `main` (src/icon_maker.py lines 110-120): for each
size `s` resize the master to `s x s` (Pillow validating positivity), record
`icon<s>.png`, and when rounding is on also `icon<s>_round.png`; the first
Pillow error aborts the run. -/
def pipeline (R : Resampler) (master : Bitmap) (mkRound : Bool)
    (outdir : String) : List Int → Except String (List (String × Bitmap))
  | [] => .ok []
  | s :: rest =>
    match resizeChecked R master s s with
    | .error e => .error e
    | .ok icon =>
      match pipeline R master mkRound outdir rest with
      | .error e => .error e
      | .ok more =>
          .ok (((joinPath outdir ("icon" ++ toString s ++ ".png"), icon) ::
            (if mkRound then
              [(joinPath outdir ("icon" ++ toString s ++ "_round.png"),
                make_round icon)]
             else [])) ++ more)

/-- The observable outcome of a successful run: the icon files written to
disk (path and content), the archive if one was written (its path and its
members as arcname/content pairs), and the line printed to stdout. -/
structure RunResult where
  files : List (String × Bitmap)
  zipped : Option (String × List (String × Bitmap))
  printed : String

/-- The archive step of `main` (src/icon_maker.py lines 122-129): with
`--zip` (the default) every generated file is written into
`icons_bundle.zip` under its basename and the zip path is printed;
otherwise no archive is made and the output directory is printed. -/
def finishRun (cfg : Config) (files : List (String × Bitmap)) : RunResult :=
  if cfg.makeZip then
    ⟨files,
     some (joinPath cfg.outdir "icons_bundle.zip",
           files.map (fun f => (basename f.1, f.2))),
     joinPath cfg.outdir "icons_bundle.zip"⟩
  else ⟨files, none, cfg.outdir⟩

/-- Function `main` from src/icon_maker.py lines 100-129, after argument parsing:
decode the source (`Image.open`, abstract parameter `dec`; its exception
propagates), parse the background, build the master square, run the
per-size loop, archive.  Every failure terminates the process with a
non-zero status (modelled as status 1 paired with the diagnostic) and
yields no run result. -/
def mainRun (R : Resampler) (dec : String → Except String Bitmap)
    (g : String → Option RGB) (cfg : Config) :
    Except (Nat × String) RunResult :=
  match dec cfg.input with
  | .error e => .error (1, e)
  | .ok src =>
    match parse_bg g cfg.bg with
    | .error e => .error (1, e)
    | .ok bg =>
      match makeMaster R src cfg.mode bg with
      | .error e => .error (1, e)
      | .ok master =>
        match pipeline R master cfg.makeRound cfg.outdir cfg.sizes with
        | .error e => .error (1, e)
        | .ok files => .ok (finishRun cfg files)

/-- Function `parse_args` from src/icon_maker.py lines 36-58: with a bare program
name (`len(sys.argv) == 1`) it prints the argparse help text to stderr and
exits with status 1; otherwise it defers to argparse, kept abstract as
`ap`. -/
def parse_args (ap : List String → Except (Nat × String) Config)
    (help : String) (argv : List String) : Except (Nat × String) Config :=
  if argv.length = 1 then .error (1, help) else ap argv

/-- The whole program: `parse_args` followed by the body of `main`. -/
def icon_maker_main (R : Resampler) (dec : String → Except String Bitmap)
    (g : String → Option RGB) (ap : List String → Except (Nat × String) Config)
    (help : String) (argv : List String) : Except (Nat × String) RunResult :=
  match parse_args ap help argv with
  | .error e => .error e
  | .ok cfg => mainRun R dec g cfg

/-- Accumulator loop of `pyint`: consume decimal digits. -/
def decNatAux : List Char → Nat → Option Nat
  | [], acc => some acc
  | c :: cs, acc =>
      if c.isDigit then decNatAux cs (acc * 10 + (c.toNat - 48)) else none

/-- A non-empty all-digit character list as a natural number. -/
def decNat (ds : List Char) : Option Nat :=
  if ds.isEmpty then none else decNatAux ds 0

/-- Modelled from the library: Python `int()` on the plain decimal tokens
argparse passes for `type=int` (an optional minus sign followed by digits;
surrounding whitespace and underscore separators are not modelled, no token
below uses them). -/
def pyint (s : String) : Option Int :=
  match s.data with
  | '-' :: rest => (decNat rest).map (fun n => -(n : Int))
  | ds => (decNat ds).map (fun n => (n : Int))

/-- Modelled from the source: `--sizes` is declared `nargs="+", type=int`,
so argparse converts each token with Python `int()` and performs no further
validation. -/
def parseSizeTokens (toks : List String) : Option (List Int) :=
  toks.mapM pyint

/-- C4: for the requested size list [16, 32, 48] the per-size loop produces
exactly the three files icon16.png, icon32.png, icon48.png in the output
directory (exactly six files, adding icon<N>_round.png after each, when
rounding is enabled), and each produced bitmap, round or not, has the
requested dimensions N x N. -/
theorem pipeline_sizes_spec (R : Resampler) (master : Bitmap)
    (outdir : String) :
    pipeline R master false outdir [16, 32, 48] =
      .ok [(joinPath outdir "icon16.png", resize R master 16 16),
           (joinPath outdir "icon32.png", resize R master 32 32),
           (joinPath outdir "icon48.png", resize R master 48 48)] ∧
    pipeline R master true outdir [16, 32, 48] =
      .ok [(joinPath outdir "icon16.png", resize R master 16 16),
           (joinPath outdir "icon16_round.png", make_round (resize R master 16 16)),
           (joinPath outdir "icon32.png", resize R master 32 32),
           (joinPath outdir "icon32_round.png", make_round (resize R master 32 32)),
           (joinPath outdir "icon48.png", resize R master 48 48),
           (joinPath outdir "icon48_round.png", make_round (resize R master 48 48))] ∧
    ∀ n : Nat, (resize R master n n).width = n ∧
      (resize R master n n).height = n ∧
      (make_round (resize R master n n)).width = n ∧
      (make_round (resize R master n n)).height = n :=
  ⟨rfl, rfl, fun _ => ⟨rfl, rfl, rfl, rfl⟩⟩

/-- C6: when the source image decodes but the background string is neither
the keyword "transparent" (case-insensitively) nor parseable by
`ImageColor.getrgb`, the run aborts with the diagnostic naming the bad
color and terminates with non-zero status, yielding no run result and
hence no icon files. -/
theorem invalid_bg_aborts (R : Resampler) (dec : String → Except String Bitmap)
    (g : String → Option RGB) (cfg : Config) (src : Bitmap)
    (hdec : dec cfg.input = .ok src)
    (ht : lowerStr cfg.bg ≠ "transparent") (hg : g cfg.bg = none) :
    mainRun R dec g cfg = .error (1, "Invalid --bg color: " ++ cfg.bg) := by
  simp only [mainRun, hdec, parse_bg, if_neg ht, hg]

/-- Witness for C6: a run with `--bg bogus` (unparseable) aborts with the
diagnostic. -/
theorem invalid_bg_aborts_witness :
    mainRun sampleR (fun _ => .ok demo2) (fun _ => none)
        ⟨"face.png", "out", [16], "contain", "bogus", false, true⟩ =
      .error (1, "Invalid --bg color: " ++ "bogus") :=
  invalid_bg_aborts sampleR (fun _ => .ok demo2) (fun _ => none)
    ⟨"face.png", "out", [16], "contain", "bogus", false, true⟩ demo2
    rfl (by decide) rfl

/-- C7: invoking the program with no command-line arguments (a one-element
argv, just the program name) prints the argparse usage text and exits with
status 1, producing no run result and hence no output files. -/
theorem no_args_usage (R : Resampler) (dec : String → Except String Bitmap)
    (g : String → Option RGB)
    (ap : List String → Except (Nat × String) Config) (help : String)
    (prog : String) :
    icon_maker_main R dec g ap help [prog] = .error (1, help) := rfl

/-- Counterexample to C8 as stated: size validation does not exist; the
token "0" is accepted by the `type=int` conversion, so a run whose parsed
configuration contains the non-positive size 0 proceeds past configuration
parsing. -/
theorem sizes_not_validated_cex :
    ¬ (∀ (toks : List String) (sizes : List Int),
        parseSizeTokens toks = some sizes → ∀ s ∈ sizes, 0 < s) := by
  intro hcl
  have h := hcl ["0"] [0] rfl 0 (List.mem_singleton.mpr rfl)
  omega

/-- An `Except.error` result of the modelled Pillow resize always carries
the resize diagnostic. -/
theorem resizeChecked_error (R : Resampler) (im : Bitmap) (a b : Int)
    (e : String) (h : resizeChecked R im a b = .error e) : e = resizeErrMsg := by
  unfold resizeChecked at h
  split at h
  · exact Except.noConfusion h
  · injection h with h2
    exact h2.symm

/-- C8 (amended): configuration parsing converts size tokens with `int()`
and performs no positivity validation, so any parsed size, including
non-positive ones, enters the per-size generation pipeline; a run whose
size list contains a non-positive value aborts inside the resize of the imaging
library with its `height and width must be > 0` error. -/
theorem sizes_flow_unvalidated (toks : List String) (sizes : List Int)
    (hp : parseSizeTokens toks = some sizes) (s : Int) (hs : s ∈ sizes)
    (hnp : s ≤ 0) (R : Resampler) (master : Bitmap) (b : Bool)
    (outdir : String) :
    pipeline R master b outdir sizes = .error resizeErrMsg := by
  clear hp
  induction sizes with
  | nil => simp at hs
  | cons head rest ih =>
    rcases List.mem_cons.mp hs with rfl | hmem
    · have hrc : resizeChecked R master s s = .error resizeErrMsg := by
        unfold resizeChecked
        rw [if_neg (by omega)]
      unfold pipeline
      rw [hrc]
    · cases hrc : resizeChecked R master head head with
      | error e =>
        have he := resizeChecked_error R master head head e hrc
        unfold pipeline
        rw [hrc, he]
      | ok icon =>
        unfold pipeline
        rw [hrc, ih hmem]

/-- Witness for C8 (amended): the token "0" parses, and the resulting size
list [0] drives the pipeline into the resize error. -/
theorem sizes_flow_unvalidated_witness :
    pipeline sampleR demo2 false "out" [0] = .error resizeErrMsg :=
  sizes_flow_unvalidated ["0"] [0] rfl 0 (List.mem_singleton.mpr rfl)
    (by omega) sampleR demo2 false "out"

/-- C9: in cover mode the parsed background color value is never used, so
two runs that differ only in their (parseable) background strings produce
identical outcomes: the same files, the same archive, the same printed
line. -/
theorem cover_ignores_bg (R : Resampler) (dec : String → Except String Bitmap)
    (g : String → Option RGB) (cfg : Config) (b1 b2 : String)
    (o1 o2 : Option RGB) (hmode : cfg.mode = "cover")
    (h1 : parse_bg g b1 = .ok o1) (h2 : parse_bg g b2 = .ok o2) :
    mainRun R dec g (cfg.setBg b1) = mainRun R dec g (cfg.setBg b2) := by
  simp only [mainRun, Config.setBg, finishRun]
  cases hdec : dec cfg.input with
  | error e => rfl
  | ok src =>
    rw [h1, h2, hmode]
    simp [makeMaster]

/-- Configuration used by run-level witnesses. -/
def demoCfg : Config := ⟨"face.png", "out", [1], "cover", "transparent", false, true⟩

/-- Witness for C9: a concrete cover-mode run under "transparent" equals
the same run under the parseable color "red". -/
theorem cover_ignores_bg_witness :
    mainRun sampleR (fun _ => .ok demo2)
        (fun s => if s = "red" then some (255, 0, 0) else none)
        (demoCfg.setBg "transparent") =
      mainRun sampleR (fun _ => .ok demo2)
        (fun s => if s = "red" then some (255, 0, 0) else none)
        (demoCfg.setBg "red") :=
  cover_ignores_bg sampleR (fun _ => .ok demo2)
    (fun s => if s = "red" then some (255, 0, 0) else none)
    demoCfg "transparent" "red" none (some (255, 0, 0)) rfl rfl rfl

/-- A successful run is always the archive step applied to some file
list. -/
theorem mainRun_ok_shape (R : Resampler) (dec : String → Except String Bitmap)
    (g : String → Option RGB) (cfg : Config) (res : RunResult)
    (hr : mainRun R dec g cfg = .ok res) :
    ∃ files, res = finishRun cfg files := by
  unfold mainRun at hr
  cases h1 : dec cfg.input with
  | error e => simp only [h1] at hr; exact Except.noConfusion hr
  | ok src =>
    simp only [h1] at hr
    cases h2 : parse_bg g cfg.bg with
    | error e => simp only [h2] at hr; exact Except.noConfusion hr
    | ok bg =>
      simp only [h2] at hr
      cases h3 : makeMaster R src cfg.mode bg with
      | error e => simp only [h3] at hr; exact Except.noConfusion hr
      | ok master =>
        simp only [h3] at hr
        cases h4 : pipeline R master cfg.makeRound cfg.outdir cfg.sizes with
        | error e => simp only [h4] at hr; exact Except.noConfusion hr
        | ok files =>
          simp only [h4, Except.ok.injEq] at hr
          exact ⟨files, hr.symm⟩

theorem finishRun_files (cfg : Config) (files : List (String × Bitmap)) :
    (finishRun cfg files).files = files := by
  unfold finishRun
  split <;> rfl

/-- C5: with archive mode enabled (the default), a successful run yields
exactly one archive, named icons_bundle.zip inside the output directory;
its member list is exactly the generated file list mapped to
basename/content pairs, so the member count equals the number of generated
files and every member carries content identical to the corresponding file
on disk. -/
theorem zip_spec (R : Resampler) (dec : String → Except String Bitmap)
    (g : String → Option RGB) (cfg : Config) (res : RunResult)
    (hz : cfg.makeZip = true) (hr : mainRun R dec g cfg = .ok res) :
    res.zipped = some (joinPath cfg.outdir "icons_bundle.zip",
      res.files.map (fun f => (basename f.1, f.2))) ∧
    (res.files.map (fun f => (basename f.1, f.2))).length = res.files.length ∧
    ∀ m ∈ res.files.map (fun f => (basename f.1, f.2)),
      ∃ f ∈ res.files, m.1 = basename f.1 ∧ m.2 = f.2 := by
  obtain ⟨files, rfl⟩ := mainRun_ok_shape R dec g cfg res hr
  refine ⟨?_, List.length_map _ _, ?_⟩
  · rw [finishRun_files]
    unfold finishRun
    rw [if_pos hz]
  · intro m hm
    obtain ⟨f, hf, rfl⟩ := List.mem_map.mp hm
    exact ⟨f, hf, rfl, rfl⟩

/-- The master square built by a concrete cover-mode run, used by
witnesses. -/
def demoMaster : Bitmap := resize sampleR (square_cover demo2) 1024 1024

/-- Witness for C5: a concrete default-configuration run over one size
satisfies the archive contract. -/
theorem zip_spec_witness :
    (finishRun demoCfg [(joinPath "out" "icon1.png",
        resize sampleR demoMaster 1 1)]).zipped =
      some (joinPath demoCfg.outdir "icons_bundle.zip",
        (finishRun demoCfg [(joinPath "out" "icon1.png",
          resize sampleR demoMaster 1 1)]).files.map
            (fun f => (basename f.1, f.2))) ∧
    ((finishRun demoCfg [(joinPath "out" "icon1.png",
        resize sampleR demoMaster 1 1)]).files.map
          (fun f => (basename f.1, f.2))).length =
      (finishRun demoCfg [(joinPath "out" "icon1.png",
        resize sampleR demoMaster 1 1)]).files.length ∧
    ∀ m ∈ (finishRun demoCfg [(joinPath "out" "icon1.png",
        resize sampleR demoMaster 1 1)]).files.map
          (fun f => (basename f.1, f.2)),
      ∃ f ∈ (finishRun demoCfg [(joinPath "out" "icon1.png",
        resize sampleR demoMaster 1 1)]).files,
        m.1 = basename f.1 ∧ m.2 = f.2 :=
  zip_spec sampleR (fun _ => .ok demo2) (fun _ => none) demoCfg
    (finishRun demoCfg [(joinPath "out" "icon1.png",
      resize sampleR demoMaster 1 1)]) rfl rfl

/-- Whenever `square_contain` returns, the returned bitmap has exactly the
target dimensions. -/
theorem square_contain_ok_dims (R : Resampler) (im : Bitmap) (size : Nat)
    (bg : Option RGB) (m : Bitmap) (h : square_contain R im size bg = .ok m) :
    m.width = size ∧ m.height = size := by
  unfold square_contain at h
  split at h
  · exact Except.noConfusion h
  · split at h
    · exact Except.noConfusion h
    · injection h with h2
      rw [← h2]
      exact ⟨rfl, rfl⟩

/-- Every positive requested size yields, in a successful per-size loop,
the file `icon<s>.png` whose bitmap is the master resampled to
`s x s`. -/
theorem pipeline_mem (R : Resampler) (master : Bitmap) (b : Bool)
    (outdir : String) (sizes : List Int) (files : List (String × Bitmap))
    (s : Int) (h : pipeline R master b outdir sizes = .ok files)
    (hs : s ∈ sizes) :
    (joinPath outdir ("icon" ++ toString s ++ ".png"),
      resize R master s.toNat s.toNat) ∈ files := by
  induction sizes generalizing files with
  | nil => simp at hs
  | cons head rest ih =>
    unfold pipeline at h
    cases hrc : resizeChecked R master head head with
    | error e => simp only [hrc] at h; exact Except.noConfusion h
    | ok icon =>
      simp only [hrc] at h
      cases hrest : pipeline R master b outdir rest with
      | error e => simp only [hrest] at h; exact Except.noConfusion h
      | ok more =>
        simp only [hrest, Except.ok.injEq] at h
        subst h
        rcases List.mem_cons.mp hs with rfl | hmem
        · have hicon : icon = resize R master s.toNat s.toNat := by
            unfold resizeChecked at hrc
            split at hrc
            · injection hrc with h2
              exact h2.symm
            · exact Except.noConfusion hrc
          subst hicon
          exact List.mem_append_left _ (List.mem_cons_self _ _)
        · exact List.mem_append_right _ (ih more hrest hmem)

/-- C10: for every input and both fit modes, whenever the master square
bitmap is produced it is exactly 1024 x 1024 (cover: crop then resample to
1024; any other mode: composition onto the 1024 x 1024 canvas), and every
per-size icon of a successful run — for any requested size, including
sizes larger than 1024 — is the resampling of this fixed master, not of
the source. -/
theorem master_resample_spec (R : Resampler) (src : Bitmap) (mode : String)
    (bg : Option RGB) (m : Bitmap) (hm : makeMaster R src mode bg = .ok m) :
    m.width = 1024 ∧ m.height = 1024 ∧
    ∀ (b : Bool) (outdir : String) (sizes : List Int)
      (files : List (String × Bitmap)) (s : Int),
      pipeline R m b outdir sizes = .ok files → s ∈ sizes →
      (joinPath outdir ("icon" ++ toString s ++ ".png"),
        resize R m s.toNat s.toNat) ∈ files := by
  have hdims : m.width = 1024 ∧ m.height = 1024 := by
    unfold makeMaster at hm
    split at hm
    · injection hm with h2
      rw [← h2]
      exact ⟨rfl, rfl⟩
    · exact square_contain_ok_dims R src 1024 bg m hm
  exact ⟨hdims.1, hdims.2,
    fun b outdir sizes files s h hs => pipeline_mem R m b outdir sizes files s h hs⟩

/-- Witness for C10: the cover-mode master of a concrete source is
1024 x 1024, and a run requesting the oversized 2048 contains
icon2048.png resampled from that master. -/
theorem master_resample_spec_witness :
    demoMaster.width = 1024 ∧ demoMaster.height = 1024 ∧
    (joinPath "out" ("icon" ++ toString (2048 : Int) ++ ".png"),
        resize sampleR demoMaster (2048 : Int).toNat (2048 : Int).toNat) ∈
      [(joinPath "out" "icon2048.png", resize sampleR demoMaster 2048 2048)] := by
  obtain ⟨h1, h2, h3⟩ :=
    master_resample_spec sampleR demo2 "cover" none demoMaster rfl
  exact ⟨h1, h2,
    h3 false "out" [2048]
      [(joinPath "out" "icon2048.png", resize sampleR demoMaster 2048 2048)]
      2048 rfl (List.mem_singleton.mpr rfl)⟩
